import Mathlib

/-!
Quiz Session Engine: verification of the PlayQzv3 core

Shallow embedding of the quiz engine of the PlayQzv3 repository:

* the quiz generation hook (`useQuizGeneration.generateQuiz`): config
  validation, the filtered/limited candidate fetch, the comparator-based
  shuffle, slice, and attempt creation;
* the Zustand quiz store (`quizStore`): `submitAnswer`, `submitQuiz`,
  `nextQuestion`, `previousQuestion`, `resetQuiz`, `setTimeRemaining`,
  `setQuiz`, `startAttempt`, with `responses` modelled as a JS `Map`
  (entry list with overwrite-by-key `set`);
* the countdown tick of the `TakeQuiz` page;
* a spec-modelled finalization aggregate for the server-side
  `finalize_quiz_attempt` stored procedure, which is not in the client
  source.

JS numbers are embedded as `Int` for timestamps/counters and `ℚ` for
points and time-spent sums; strings stay `String`.  Randomness is made
explicit: the `Math.random() - 0.5` comparator passed to `Array.sort`
is modelled by a list of fair-coin outcomes consumed by an insertion
sort (`shuffleJS`), one coin per comparator call — ECMAScript guarantees
only that `sort` returns some permutation of its input when the
comparator is inconsistent, and insertion sort realizes one such
implementation.  Database reads with no `ORDER BY` are modelled as
returning rows in table (pool) order.
-/

namespace PlayQz

/-- Question difficulty, also used for the config filter (`mixed` never
appears on a stored question in practice but the type is shared, as the
source compares the two as strings). -/
inductive Difficulty where
  | easy
  | medium
  | hard
  | mixed
deriving DecidableEq, Repr

/-- A question-bank row, with the fields the engine reads
(`src/unnamed/part_000`, `quizStore.submitAnswer`). -/
structure Question where
  id : String
  question_text : String
  category : String
  difficulty : Difficulty
  options : List String
  correct_answer : String
  points : ℚ
  is_active : Bool
deriving DecidableEq, Repr

/-- `QuizConfig` as validated by `useQuizGeneration.generateQuiz`;
`timeLimit` is the optional per-quiz limit read by `setQuiz`
(`attempt.config.timeLimit || 0`). -/
structure QuizConfig where
  numQuestions : Nat
  difficulty : Difficulty
  categories : List String
  timeLimit : Option Int
deriving DecidableEq, Repr

/-- Attempt status values of the `quiz_attempts` table. -/
inductive AttemptStatus where
  | in_progress
  | completed
  | abandoned
  | expired
deriving DecidableEq, Repr

/-- A `quiz_attempts` row as created by `useQuizGeneration.generateQuiz`. -/
structure QuizAttempt where
  id : String
  user_id : String
  config : QuizConfig
  question_ids : List String
  total_questions : Nat
  status : AttemptStatus
  started_at : Int
  completed_at : Option Int
deriving DecidableEq, Repr

/-- A `quiz_responses` row as built by `quizStore.submitAnswer`. -/
structure QuizResponse where
  id : String
  attempt_id : String
  question_id : String
  user_id : String
  user_answer : String
  is_correct : Bool
  time_spent_seconds : ℚ
  answered_at : Int
  points_awarded : ℚ
  max_points : ℚ
  question_position : Nat
  skipped : Bool
  created_at : Int
  updated_at : Int
deriving DecidableEq, Repr

/-- The Zustand quiz store state (`quizStore`). `responses` is a JS
`Map<string, QuizResponse>` modelled as an insertion-ordered entry
list. -/
structure QuizState where
  currentAttempt : Option QuizAttempt
  questions : List Question
  responses : List (String × QuizResponse)
  currentQuestionIndex : Nat
  timeRemaining : Int
  isLoading : Bool
deriving DecidableEq, Repr

/-- JS `Map.prototype.set`: overwrite in place when the key exists,
append otherwise (insertion order is preserved). -/
def mapSet {α : Type} (m : List (String × α)) (k : String) (v : α) :
    List (String × α) :=
  match m with
  | [] => [(k, v)]
  | (k', v') :: rest =>
    if k' = k then (k, v) :: rest else (k', v') :: mapSet rest k v

/-- JS `Map.prototype.get`. -/
def mapGet {α : Type} (m : List (String × α)) (k : String) : Option α :=
  match m with
  | [] => none
  | (k', v') :: rest => if k' = k then some v' else mapGet rest k

/-- One insertion step of the comparator-shuffle model: insert `x` into
the already-placed list, consuming one coin per comparator call; coin
`true` stands for `Math.random() - 0.5 < 0` (place `x` before the
element compared against). Returns the new list and the unconsumed
coins. -/
def insertC {α : Type} (x : α) : List α → List Bool → List α × List Bool
  | [], coins => ([x], coins)
  | y :: ys, [] => (x :: y :: ys, [])
  | y :: ys, c :: cs =>
    if c then (x :: y :: ys, cs)
    else
      let p := insertC x ys cs
      (y :: p.1, p.2)

/-- The shuffle of the source, `[...questionsData].sort(() => Math.random() - 0.5)`
(`src/unnamed/part_000` line 46), modelled as insertion sort driven by
the list of comparator outcomes. -/
def shuffleJS {α : Type} (coins : List Bool) (l : List α) : List α :=
  (l.foldl (fun p x => insertC x p.1 p.2) (([] : List α), coins)).1

/-- All coin sequences of length `n`, each equally likely under the fair
`Math.random() - 0.5` comparator. -/
def boolLists : Nat → List (List Bool)
  | 0 => [[]]
  | n + 1 => (boolLists n).flatMap (fun l => [true :: l, false :: l])

/-- Number of length-3 coin sequences under which the comparator shuffle
maps `[0, 1, 2]` to the permutation `p` (three coins bound the number of
comparator calls for a 3-element list). -/
def shuffleCount (p : List Nat) : Nat :=
  ((boolLists 3).filter (fun cs => shuffleJS cs [0, 1, 2] == p)).length

/-- The category/difficulty/activity filter built by the question query
of `useQuizGeneration.generateQuiz`: `is_active = true`, `category` in
the configured set, and `difficulty` equality unless the config says
`mixed`. -/
def matchesFilter (cfg : QuizConfig) (q : Question) : Bool :=
  q.is_active && cfg.categories.contains q.category &&
    (cfg.difficulty == Difficulty.mixed || q.difficulty == cfg.difficulty)

/-- All pool questions matching the filter, in table order. -/
def matchingQuestions (pool : List Question) (cfg : QuizConfig) :
    List Question :=
  pool.filter (matchesFilter cfg)

/-- The over-fetch bound `Math.max(100, Math.ceil(numQuestions * 1.5))`;
for a natural `n`, `Math.ceil(1.5 * n) = (3 * n + 1) / 2` in integer
division. -/
def quizLimit (n : Nat) : Nat := max 100 ((3 * n + 1) / 2)

/-- The `query.limit(limit)` candidate fetch: at most `quizLimit`
matching rows, in table order (the query has no `ORDER BY`). -/
def fetchCandidates (pool : List Question) (cfg : QuizConfig) :
    List Question :=
  (matchingQuestions pool cfg).take (quizLimit cfg.numQuestions)

/-- Failures of `useQuizGeneration.generateQuiz`; the insufficiency
error carries the pair (available, required) exactly as interpolated
into the thrown message. -/
inductive GenError where
  | invalidConfig : String → GenError
  | insufficientQuestions : Nat → Nat → GenError
  | notAuthenticated : GenError
deriving DecidableEq, Repr

/-- Successful generation: the inserted `quiz_attempts` row and the
selected questions handed to `setQuiz`. -/
structure GenResult where
  attempt : QuizAttempt
  questions : List Question
deriving DecidableEq, Repr

/-- `useQuizGeneration.generateQuiz` (`src/unnamed/part_000`): validate
the config, fetch up to `quizLimit` active matching questions, fail with
the insufficiency error when fewer than `numQuestions` came back,
shuffle with the random comparator, take the first `numQuestions`, then
(for an authenticated user) insert the attempt with the selected ids as
`question_ids` in shuffled order. `aid` is the id the store assigns to
the inserted row, `now` the `started_at` timestamp. -/
def generateQuiz (cfg : QuizConfig) (pool : List Question)
    (coins : List Bool) (user : Option String) (aid : String) (now : Int) :
    Except GenError GenResult :=
  if cfg.numQuestions ≤ 0 then
    .error (.invalidConfig "Number of questions must be positive")
  else if cfg.categories.length = 0 then
    .error (.invalidConfig "At least one category must be selected")
  else
    let questionsData := fetchCandidates pool cfg
    if questionsData.length < cfg.numQuestions then
      .error (.insufficientQuestions questionsData.length cfg.numQuestions)
    else
      let shuffled := shuffleJS coins questionsData
      let selectedQuestions := shuffled.take cfg.numQuestions
      let questionIds := selectedQuestions.map (fun q => q.id)
      match user with
      | none => .error .notAuthenticated
      | some uid =>
        .ok { attempt :=
                { id := aid
                  user_id := uid
                  config := cfg
                  question_ids := questionIds
                  total_questions := cfg.numQuestions
                  status := .in_progress
                  started_at := now
                  completed_at := none }
              questions := selectedQuestions }

/-- The response record built by `quizStore.submitAnswer` for question
`q` of attempt `att`. -/
def mkResponse (att : QuizAttempt) (q : Question)
    (questionId answer : String) (timeSpent : ℚ) (now : Int)
    (uuid : String) (idx : Nat) : QuizResponse :=
  { id := uuid
    attempt_id := att.id
    question_id := questionId
    user_id := att.user_id
    user_answer := answer
    is_correct := answer == q.correct_answer
    time_spent_seconds := timeSpent
    answered_at := now
    points_awarded := if answer == q.correct_answer then q.points else 0
    max_points := q.points
    question_position := idx + 1
    skipped := false
    created_at := now
    updated_at := now }

/-- `quizStore.submitAnswer(questionId, answer, timeSpent)`: silently
return when no attempt is loaded or the question is not among the
loaded questions; otherwise grade against `correct_answer` and
overwrite the `Map` entry for `questionId`. `now` models
`new Date().toISOString()`, `uuid` models `crypto.randomUUID()`. -/
def submitAnswer (questionId answer : String) (timeSpent : ℚ)
    (now : Int) (uuid : String) (s : QuizState) : QuizState :=
  match s.currentAttempt with
  | none => s
  | some att =>
    match s.questions.find? (fun q => q.id == questionId) with
    | none => s
    | some q =>
      let resp :=
        mkResponse att q questionId answer timeSpent now uuid
          s.currentQuestionIndex
      { s with responses := mapSet s.responses questionId resp }

/-- The writes `quizStore.submitQuiz` sends to the backend: the inserted
`quiz_responses` rows and the `finalize_quiz_attempt` RPC arguments
(attempt id, `p_correct_answers`, `p_time_spent`). -/
structure SubmitEffects where
  insertedResponses : List QuizResponse
  finalizeAttemptId : String
  finalizeCorrect : Nat
  finalizeTimeSpent : ℚ
deriving DecidableEq, Repr

/-- `quizStore.submitQuiz`: throws `No active quiz attempt` before
touching any state when no attempt is loaded; otherwise inserts all
ledger rows, counts `is_correct` responses, sums `time_spent_seconds`,
and calls the `finalize_quiz_attempt` RPC, leaving the store fields
unchanged (apart from the loading flag it resets). -/
def submitQuiz (s : QuizState) : QuizState × Except String SubmitEffects :=
  match s.currentAttempt with
  | none => (s, .error "No active quiz attempt")
  | some att =>
    let responsesArray := s.responses.map Prod.snd
    let correctAnswers := (responsesArray.filter (fun r => r.is_correct)).length
    let totalTimeSpent :=
      responsesArray.foldl (fun sum r => sum + r.time_spent_seconds) 0
    ({ s with isLoading := false },
     .ok { insertedResponses := responsesArray
           finalizeAttemptId := att.id
           finalizeCorrect := correctAnswers
           finalizeTimeSpent := totalTimeSpent })

/-- `quizStore.nextQuestion`. -/
def nextQuestion (s : QuizState) : QuizState :=
  if s.currentQuestionIndex < s.questions.length - 1 then
    { s with currentQuestionIndex := s.currentQuestionIndex + 1 }
  else s

/-- `quizStore.previousQuestion`. -/
def previousQuestion (s : QuizState) : QuizState :=
  if 0 < s.currentQuestionIndex then
    { s with currentQuestionIndex := s.currentQuestionIndex - 1 }
  else s

/-- `quizStore.resetQuiz` (it does not touch `isLoading`). -/
def resetQuiz (s : QuizState) : QuizState :=
  { currentAttempt := none
    questions := []
    responses := []
    currentQuestionIndex := 0
    timeRemaining := 0
    isLoading := s.isLoading }

/-- `quizStore.setTimeRemaining` in its updater-function form (the value
form is the constant function). -/
def setTimeRemaining (f : Int → Int) (s : QuizState) : QuizState :=
  { s with timeRemaining := f s.timeRemaining }

/-- The once-per-second interval body of the `TakeQuiz` page:
`setTimeRemaining((t) => Math.max(t - 1, 0))` — a client-local countdown
consulting only the previous stored value, never `started_at` or a
trusted clock. -/
def tick (s : QuizState) : QuizState :=
  setTimeRemaining (fun t => max (t - 1) 0) s

/-- `quizStore.setQuiz(attempt, questions)`, used by the generation hook
to install the freshly created attempt with the selected questions in
shuffled order. -/
def setQuiz (att : QuizAttempt) (qs : List Question) (_s : QuizState) :
    QuizState :=
  { currentAttempt := some att
    questions := qs
    responses := []
    currentQuestionIndex := 0
    timeRemaining := att.config.timeLimit.getD 0
    isLoading := false }

/-- `quizStore.startAttempt(attemptId)` after both fetches succeed: the
attempt row `att`, and the questions fetched with the `.in` filter
over `question_ids`, which imposes no ordering — the rows come back in table
(pool) order, not in `question_ids` order. `startAttempt` does not set
`timeRemaining`. -/
def startAttempt (pool : List Question) (att : QuizAttempt)
    (s : QuizState) : QuizState :=
  { currentAttempt := some att
    questions := pool.filter (fun q => att.question_ids.contains q.id)
    responses := []
    currentQuestionIndex := 0
    timeRemaining := s.timeRemaining
    isLoading := false }

/-- Sum of `points_awarded` over a response ledger. -/
def sumPointsAwarded (rs : List QuizResponse) : ℚ :=
  (rs.map (fun r => r.points_awarded)).sum

/-- Sum of `max_points` over a response ledger. -/
def sumMaxPoints (rs : List QuizResponse) : ℚ :=
  (rs.map (fun r => r.max_points)).sum

/-- Round to two decimal places. -/
def round2 (x : ℚ) : ℚ := (round (x * 100) : ℤ) / 100

/-- Modelled from the spec: the server-side `finalize_quiz_attempt`
stored procedure is a Supabase RPC whose SQL body is not in the client
source (only its caller `quizStore.submitQuiz` is); per §4.3/§3 of the
spec it aggregates the response ledger in a single left fold,
accumulating the `is_correct` count and the `points_awarded` and
`max_points` sums. -/
def finalizeAgg (rs : List QuizResponse) : Nat × ℚ × ℚ :=
  rs.foldl
    (fun acc r =>
      (acc.1 + (if r.is_correct then 1 else 0),
       acc.2.1 + r.points_awarded,
       acc.2.2 + r.max_points))
    (0, 0, 0)

/-- Modelled from the spec: the score written by `finalize_quiz_attempt`
— `round(100 * sum(pointsAwarded) / sum(maxPoints), 2)` when the
max-points sum is positive, else `0`. -/
def finalizeScore (rs : List QuizResponse) : ℚ :=
  let agg := finalizeAgg rs
  if 0 < agg.2.2 then round2 (100 * agg.2.1 / agg.2.2) else 0

/-- Modelled from the spec: the `correctAnswers` written by
`finalize_quiz_attempt`. -/
def finalizeCorrect (rs : List QuizResponse) : Nat :=
  (finalizeAgg rs).1

/-- The questions selected by `generateQuiz` on the success path: the
first `numQuestions` elements of the shuffled candidate list. -/
def selQs (cfg : QuizConfig) (pool : List Question) (coins : List Bool) :
    List Question :=
  (shuffleJS coins (fetchCandidates pool cfg)).take cfg.numQuestions

/-- The `question_ids` recorded on the created attempt, in presentation
order. -/
def selIds (cfg : QuizConfig) (pool : List Question) (coins : List Bool) :
    List String :=
  (selQs cfg pool coins).map (fun q => q.id)

/-- The empty store, the state before any quiz is loaded. -/
def initialState : QuizState :=
  { currentAttempt := none
    questions := []
    responses := []
    currentQuestionIndex := 0
    timeRemaining := 0
    isLoading := false }

/-- A concrete science/easy question used by witnesses and
counterexamples. -/
def qSampleA : Question :=
  { id := "A"
    question_text := "2+2?"
    category := "science"
    difficulty := .easy
    options := ["3", "4"]
    correct_answer := "4"
    points := 10
    is_active := true }

/-- A second concrete question with a distinct id. -/
def qSampleB : Question :=
  { id := "B"
    question_text := "3+3?"
    category := "science"
    difficulty := .easy
    options := ["5", "6"]
    correct_answer := "6"
    points := 10
    is_active := true }

/-- A one-question config over the science category. -/
def cfgSample : QuizConfig :=
  { numQuestions := 1
    difficulty := .easy
    categories := ["science"]
    timeLimit := none }

/-- A finished (terminal) attempt over questions A and B. -/
def attemptDone : QuizAttempt :=
  { id := "att1"
    user_id := "u1"
    config := { cfgSample with numQuestions := 2 }
    question_ids := ["A", "B"]
    total_questions := 2
    status := .completed
    started_at := 0
    completed_at := some 60 }

/-- An attempt whose `question_ids` order (B before A) disagrees with
the table order of the pool (A before B). -/
def attemptRev : QuizAttempt :=
  { id := "att2"
    user_id := "u1"
    config := { cfgSample with numQuestions := 2 }
    question_ids := ["B", "A"]
    total_questions := 2
    status := .in_progress
    started_at := 0
    completed_at := none }

/-- A store holding the terminal attempt with its questions loaded and
an empty ledger. -/
def stateDone : QuizState :=
  { currentAttempt := some attemptDone
    questions := [qSampleA, qSampleB]
    responses := []
    currentQuestionIndex := 0
    timeRemaining := 0
    isLoading := false }

/-- A store holding the in-progress attempt `attemptRev` with both
questions loaded and an empty ledger. -/
def stateInProg : QuizState :=
  { currentAttempt := some attemptRev
    questions := [qSampleA, qSampleB]
    responses := []
    currentQuestionIndex := 0
    timeRemaining := 0
    isLoading := false }

/-- The result of `generateQuiz cfgSample [qSampleA] [] (some "u1")
"att" 0`, written out. -/
def genSampleResult : GenResult :=
  { attempt :=
      { id := "att"
        user_id := "u1"
        config := cfgSample
        question_ids := ["A"]
        total_questions := 1
        status := .in_progress
        started_at := 0
        completed_at := none }
    questions := [qSampleA] }

/-! ## Helper lemmas -/

theorem insertC_perm {α : Type} (x : α) (ys : List α) (coins : List Bool) :
    (insertC x ys coins).1.Perm (x :: ys) := by
  induction ys generalizing coins with
  | nil => simp [insertC]
  | cons y ys ih =>
    cases coins with
    | nil => simp [insertC]
    | cons c cs =>
      by_cases hc : c = true
      · simp [insertC, hc]
      · simp only [insertC, eq_false_of_ne_true hc, if_false]
        exact ((ih cs).cons y).trans (List.Perm.swap x y ys)

theorem shuffle_foldl_perm {α : Type} (l : List α) :
    ∀ (acc : List α) (coins : List Bool),
      ((l.foldl (fun p x => insertC x p.1 p.2) (acc, coins)).1).Perm
        (l ++ acc) := by
  induction l with
  | nil => intro acc coins; simp
  | cons x xs ih =>
    intro acc coins
    simp only [List.foldl_cons]
    have h := ih (insertC x acc coins).1 (insertC x acc coins).2
    rw [Prod.mk.eta] at h
    refine h.trans ?_
    refine (List.Perm.append_left xs (insertC_perm x acc coins)).trans ?_
    exact List.perm_middle

theorem shuffleJS_perm {α : Type} (coins : List Bool) (l : List α) :
    (shuffleJS coins l).Perm l := by
  simpa [shuffleJS] using shuffle_foldl_perm l [] coins

theorem mapGet_mapSet_self {α : Type} (m : List (String × α)) (k : String)
    (v : α) : mapGet (mapSet m k v) k = some v := by
  induction m with
  | nil => simp [mapSet, mapGet]
  | cons e rest ih =>
    by_cases h : e.1 = k
    · simp [mapSet, mapGet, h]
    · simp [mapSet, mapGet, h, ih]

theorem mapSet_mem {α : Type} {m : List (String × α)} {k : String} {v : α}
    {e : String × α} (he : e ∈ mapSet m k v) : e ∈ m ∨ e = (k, v) := by
  induction m with
  | nil => simp [mapSet] at he; right; exact he
  | cons e' rest ih =>
    by_cases h : e'.1 = k
    · rw [show mapSet (e' :: rest) k v = (k, v) :: rest by
        simp [mapSet, h]] at he
      rcases List.mem_cons.mp he with h1 | h1
      · right; exact h1
      · left; exact List.mem_cons_of_mem _ h1
    · rw [show mapSet (e' :: rest) k v = e' :: mapSet rest k v by
        simp [mapSet, h]] at he
      rcases List.mem_cons.mp he with h1 | h1
      · left; exact h1 ▸ List.mem_cons_self _ _
      · rcases ih h1 with h2 | h2
        · left; exact List.mem_cons_of_mem _ h2
        · right; exact h2

theorem mapSet_keys_mem {α : Type} {m : List (String × α)} {k : String}
    {v : α} {x : String} (hx : x ∈ (mapSet m k v).map Prod.fst) :
    x ∈ m.map Prod.fst ∨ x = k := by
  rcases List.mem_map.mp hx with ⟨e, he, hex⟩
  rcases mapSet_mem he with h | h
  · left; exact hex ▸ List.mem_map_of_mem _ h
  · right; rw [h] at hex; exact hex.symm

theorem mapSet_keys_nodup {α : Type} (m : List (String × α)) (k : String)
    (v : α) (h : (m.map Prod.fst).Nodup) :
    ((mapSet m k v).map Prod.fst).Nodup := by
  induction m with
  | nil => simp [mapSet]
  | cons e rest ih =>
    rw [List.map_cons, List.nodup_cons] at h
    by_cases hk : e.1 = k
    · rw [show mapSet (e :: rest) k v = (k, v) :: rest by simp [mapSet, hk]]
      rw [List.map_cons, List.nodup_cons]
      exact ⟨hk ▸ h.1, h.2⟩
    · rw [show mapSet (e :: rest) k v = e :: mapSet rest k v by
        simp [mapSet, hk]]
      rw [List.map_cons, List.nodup_cons]
      refine ⟨fun hmem => ?_, ih h.2⟩
      rcases mapSet_keys_mem hmem with h1 | h1
      · exact h.1 h1
      · exact hk h1

theorem filterKey_mapSet {α : Type} (m : List (String × α)) (k : String)
    (v : α) (h : (m.map Prod.fst).Nodup) :
    (mapSet m k v).filter (fun e => e.1 == k) = [(k, v)] := by
  induction m with
  | nil => simp [mapSet]
  | cons e rest ih =>
    rw [List.map_cons, List.nodup_cons] at h
    by_cases hk : e.1 = k
    · rw [show mapSet (e :: rest) k v = (k, v) :: rest by simp [mapSet, hk]]
      rw [List.filter_cons]
      simp only [beq_self_eq_true, if_pos]
      have hrest : rest.filter (fun e => e.1 == k) = [] := by
        rw [List.filter_eq_nil_iff]
        intro a ha hak
        have hak' : a.1 = k := by simpa using hak
        exact h.1 (hk ▸ hak' ▸ List.mem_map_of_mem Prod.fst ha)
      simp [hrest]
    · rw [show mapSet (e :: rest) k v = e :: mapSet rest k v by
        simp [mapSet, hk]]
      rw [List.filter_cons]
      simp only [show (e.1 == k) = false by simpa using hk, if_false]
      exact ih h.2

theorem le_quizLimit (n : Nat) : n ≤ quizLimit n := by
  have h : n ≤ (3 * n + 1) / 2 :=
    (Nat.le_div_iff_mul_le (by norm_num)).2 (by omega)
  exact h.trans (le_max_right _ _)

theorem fetchCandidates_length (pool : List Question) (cfg : QuizConfig) :
    (fetchCandidates pool cfg).length =
      min (quizLimit cfg.numQuestions) (matchingQuestions pool cfg).length := by
  simp [fetchCandidates]

theorem fetchCandidates_sublist (pool : List Question) (cfg : QuizConfig) :
    (fetchCandidates pool cfg).Sublist (matchingQuestions pool cfg) :=
  List.take_sublist _ _

theorem matchingQuestions_sublist (pool : List Question) (cfg : QuizConfig) :
    (matchingQuestions pool cfg).Sublist pool :=
  List.filter_sublist _

theorem generateQuiz_eq_ok (cfg : QuizConfig) (pool : List Question)
    (coins : List Bool) (uid aid : String) (now : Int)
    (hn : 0 < cfg.numQuestions) (hc : cfg.categories ≠ [])
    (hlen : cfg.numQuestions ≤ (fetchCandidates pool cfg).length) :
    generateQuiz cfg pool coins (some uid) aid now =
      .ok { attempt :=
              { id := aid
                user_id := uid
                config := cfg
                question_ids := selIds cfg pool coins
                total_questions := cfg.numQuestions
                status := .in_progress
                started_at := now
                completed_at := none }
            questions := selQs cfg pool coins } := by
  have h1 : ¬ cfg.numQuestions ≤ 0 := by omega
  have h2 : ¬ cfg.categories.length = 0 := by
    intro h; exact hc (List.length_eq_zero.mp h)
  have h3 : ¬ (fetchCandidates pool cfg).length < cfg.numQuestions :=
    not_lt.2 hlen
  simp [generateQuiz, h1, h2, h3, selQs, selIds]

theorem generateQuiz_eq_insufficient (cfg : QuizConfig)
    (pool : List Question) (coins : List Bool) (user : Option String)
    (aid : String) (now : Int)
    (hn : 0 < cfg.numQuestions) (hc : cfg.categories ≠ [])
    (hlt : (fetchCandidates pool cfg).length < cfg.numQuestions) :
    generateQuiz cfg pool coins user aid now =
      .error (.insufficientQuestions (fetchCandidates pool cfg).length
        cfg.numQuestions) := by
  have h1 : ¬ cfg.numQuestions ≤ 0 := by omega
  have h2 : ¬ cfg.categories.length = 0 := by
    intro h; exact hc (List.length_eq_zero.mp h)
  simp [generateQuiz, h1, h2, hlt]

theorem submitAnswer_found (questionId answer : String) (timeSpent : ℚ)
    (now : Int) (uuid : String) (s : QuizState) (att : QuizAttempt)
    (q : Question) (hatt : s.currentAttempt = some att)
    (hq : s.questions.find? (fun qq => qq.id == questionId) = some q) :
    submitAnswer questionId answer timeSpent now uuid s =
      { s with responses :=
          (mapSet s.responses questionId
            (mkResponse att q questionId answer timeSpent now uuid
              s.currentQuestionIndex)) } := by
  simp [submitAnswer, hatt, hq]

theorem submitAnswer_noop (questionId answer : String) (timeSpent : ℚ)
    (now : Int) (uuid : String) (s : QuizState)
    (h : s.currentAttempt = none ∨
      s.questions.find? (fun q => q.id == questionId) = none) :
    submitAnswer questionId answer timeSpent now uuid s = s := by
  rcases h with h | h
  · simp [submitAnswer, h]
  · rcases hatt : s.currentAttempt with _ | att
    · simp [submitAnswer, hatt]
    · simp [submitAnswer, hatt, h]

/-! ## Claim theorems -/

/-- C1: for every valid config (positive `numQuestions`, non-empty
`categories`) over a pool with distinct question ids, when the pool
contains at least `numQuestions` active questions matching the
category/difficulty filter, `generateQuiz` succeeds and the created
attempt carries exactly `numQuestions` distinct question ids, each the
id of a pool question matching the filter; when the pool has fewer
matching questions than `numQuestions` (equivalently, fewer candidates
than requested come back from the limited fetch, since the fetch limit
is at least `numQuestions`), it fails with `insufficientQuestions`
carrying the pair (available, required), and — the result being an
error — no attempt record is created. -/
theorem c1_generate (cfg : QuizConfig) (pool : List Question)
    (coins : List Bool) (uid aid : String) (now : Int)
    (hn : 0 < cfg.numQuestions) (hc : cfg.categories ≠ [])
    (hids : (pool.map Question.id).Nodup) :
    (cfg.numQuestions ≤ (matchingQuestions pool cfg).length →
      generateQuiz cfg pool coins (some uid) aid now =
        .ok { attempt :=
                { id := aid
                  user_id := uid
                  config := cfg
                  question_ids := selIds cfg pool coins
                  total_questions := cfg.numQuestions
                  status := .in_progress
                  started_at := now
                  completed_at := none }
              questions := selQs cfg pool coins }
      ∧ (selIds cfg pool coins).length = cfg.numQuestions
      ∧ (selIds cfg pool coins).Nodup
      ∧ ∀ qid ∈ selIds cfg pool coins,
          ∃ q ∈ pool, q.id = qid ∧ matchesFilter cfg q = true)
    ∧ ((matchingQuestions pool cfg).length < cfg.numQuestions →
      generateQuiz cfg pool coins (some uid) aid now =
        .error (.insufficientQuestions (matchingQuestions pool cfg).length
          cfg.numQuestions)) := by
  constructor
  · intro hge
    have hlen : cfg.numQuestions ≤ (fetchCandidates pool cfg).length := by
      rw [fetchCandidates_length]
      exact le_min (le_quizLimit _) hge
    have hperm := shuffleJS_perm coins (fetchCandidates pool cfg)
    refine ⟨generateQuiz_eq_ok cfg pool coins uid aid now hn hc hlen,
      ?_, ?_, ?_⟩
    · rw [selIds, List.length_map, selQs, List.length_take,
        hperm.length_eq]
      exact min_eq_left hlen
    · have hsub : (fetchCandidates pool cfg).Sublist pool :=
        (fetchCandidates_sublist pool cfg).trans
          (matchingQuestions_sublist pool cfg)
      have hfetch : ((fetchCandidates pool cfg).map Question.id).Nodup :=
        hids.sublist (hsub.map Question.id)
      have hshuf : ((shuffleJS coins (fetchCandidates pool cfg)).map
          Question.id).Nodup :=
        (hperm.map Question.id).symm.nodup hfetch
      rw [selIds, selQs, List.map_take]
      exact hshuf.sublist (List.take_sublist _ _)
    · intro qid hqid
      rw [selIds] at hqid
      rcases List.mem_map.mp hqid with ⟨q, hq, hqe⟩
      have hq1 : q ∈ shuffleJS coins (fetchCandidates pool cfg) :=
        (List.take_sublist _ _).subset (by simpa [selQs] using hq)
      have hq2 : q ∈ fetchCandidates pool cfg := hperm.subset hq1
      have hq3 : q ∈ matchingQuestions pool cfg :=
        (fetchCandidates_sublist pool cfg).subset hq2
      rcases List.mem_filter.mp hq3 with ⟨hpool, hmatch⟩
      exact ⟨q, hpool, hqe, hmatch⟩
  · intro hlt
    have hbound : (matchingQuestions pool cfg).length ≤
        quizLimit cfg.numQuestions :=
      hlt.le.trans (le_quizLimit _)
    have hlen : (fetchCandidates pool cfg).length =
        (matchingQuestions pool cfg).length := by
      rw [fetchCandidates_length]
      exact min_eq_right hbound
    have := generateQuiz_eq_insufficient cfg pool coins (some uid) aid now
      hn hc (by rw [hlen]; exact hlt)
    rwa [hlen] at this

/-- C1 witness: the one-question science config against a one-question
matching pool generates an attempt with exactly one selected id. -/
theorem c1_generate_witness :
    (selIds cfgSample [qSampleA] []).length = cfgSample.numQuestions :=
  (((c1_generate cfgSample [qSampleA] [] "u1" "att" 0 (by decide)
    (by decide) (by decide)).1) (by decide)).2.1

/-- C2: the Selector shuffle is the comparator-based
`sort(() => Math.random() - 0.5)` (here `shuffleJS` with fair-coin
comparator outcomes), and that shuffle is not a uniform permutation:
over the 8 equally likely coin sequences for a 3-element list, the
permutation `[2, 1, 0]` arises twice while `[0, 1, 2]` arises once, so
the two permutations do not have equal probability — refuting
uniformity, exactly the bias that §9 of the spec flags as a bug to be
corrected with Fisher–Yates. -/
theorem c2_shuffle_biased :
    shuffleCount [2, 1, 0] = 2 ∧ shuffleCount [0, 1, 2] = 1 ∧
      shuffleCount [2, 1, 0] ≠ shuffleCount [0, 1, 2] := by
  refine ⟨by decide, by decide, by decide⟩

/-- C3: for every stored response ledger, the finalization aggregate
(modelled from the spec, the `finalize_quiz_attempt` RPC not being in
the client source) yields `score = round(100 * sum(pointsAwarded) /
sum(maxPoints), 2)` when `sum(maxPoints) > 0` and `0` otherwise, and
`correctAnswers` equal to the count of correct responses; both are
functions of the ledger alone, hence deterministic. -/
theorem c3_finalize_score (rs : List QuizResponse) :
    finalizeScore rs =
      (if 0 < sumMaxPoints rs then
        round2 (100 * sumPointsAwarded rs / sumMaxPoints rs) else 0)
    ∧ finalizeCorrect rs = (rs.filter (fun r => r.is_correct)).length := by
  have hagg : ∀ (l : List QuizResponse) (a : Nat) (b c : ℚ),
      l.foldl
        (fun acc r =>
          (acc.1 + (if r.is_correct then 1 else 0),
           acc.2.1 + r.points_awarded,
           acc.2.2 + r.max_points)) (a, b, c) =
        (a + (l.filter (fun r => r.is_correct)).length,
         b + sumPointsAwarded l, c + sumMaxPoints l) := by
    intro l
    induction l with
    | nil => intro a b c; simp [sumPointsAwarded, sumMaxPoints]
    | cons r rest ih =>
      intro a b c
      simp only [List.foldl_cons, ih, List.filter_cons, sumPointsAwarded,
        sumMaxPoints, List.map_cons, List.sum_cons]
      by_cases hr : r.is_correct
      · simp [hr]
        refine ⟨by omega, by ring, by ring⟩
      · simp [hr]
        exact ⟨by ring, by ring⟩
  have h : finalizeAgg rs =
      ((rs.filter (fun r => r.is_correct)).length,
       sumPointsAwarded rs, sumMaxPoints rs) := by
    rw [finalizeAgg, hagg]
    simp
  constructor
  · rw [finalizeScore, h]
  · rw [finalizeCorrect, h]

/-- C4 counterexample: `stateDone` holds attempt `attemptDone` whose
status is `completed` (not `in_progress`), yet `submitAnswer` — which
never consults the status — records a response into the ledger instead
of failing (its type has no error channel at all), and `submitQuiz`
succeeds rather than failing with an `AttemptNotActive`-style error.
This refutes the claim that on a terminal attempt both calls fail and
leave the ledger unchanged. -/
theorem c4_counterexample :
    attemptDone.status ≠ AttemptStatus.in_progress ∧
    stateDone.currentAttempt = some attemptDone ∧
    (submitAnswer "A" "4" 0 0 "r1" stateDone).responses ≠
      stateDone.responses ∧
    (submitQuiz stateDone).2 =
      .ok { insertedResponses := []
            finalizeAttemptId := "att1"
            finalizeCorrect := 0
            finalizeTimeSpent := 0 } := by
  refine ⟨by decide, rfl, by decide, rfl⟩

/-- C4 (amended): the store enforces no terminal-state immutability.
`submitAnswer` checks only that an attempt is loaded and that the
question is among the loaded questions — when both hold it overwrites
the ledger entry whatever the attempt status; when no attempt is
loaded it is a silent no-op. `submitQuiz` fails (throwing
`No active quiz attempt` and leaving the store unchanged) only when
no attempt is loaded, and otherwise proceeds regardless of status. -/
theorem c4_amended (qid a : String) (t : ℚ) (now : Int) (uuid : String)
    (s : QuizState) :
    (s.currentAttempt = none →
      submitAnswer qid a t now uuid s = s ∧
      (submitQuiz s).1 = s ∧
      (submitQuiz s).2 = .error "No active quiz attempt")
    ∧ (∀ att q, s.currentAttempt = some att →
        s.questions.find? (fun qq => qq.id == qid) = some q →
        (submitAnswer qid a t now uuid s).responses =
          mapSet s.responses qid
            (mkResponse att q qid a t now uuid s.currentQuestionIndex)) := by
  constructor
  · intro hnone
    exact ⟨by simp [submitAnswer, hnone], by simp [submitQuiz, hnone],
      by simp [submitQuiz, hnone]⟩
  · intro att q hatt hq
    rw [submitAnswer_found qid a t now uuid s att q hatt hq]

/-- C4 witness: on the empty store nothing changes and `submitQuiz`
errors; on the completed-attempt store the response for question A is
overwritten despite the terminal status. -/
theorem c4_amended_witness :
    (submitAnswer "A" "4" 0 0 "r1" initialState = initialState ∧
      (submitQuiz initialState).1 = initialState ∧
      (submitQuiz initialState).2 = .error "No active quiz attempt")
    ∧ (submitAnswer "A" "4" 0 0 "r1" stateDone).responses =
        mapSet stateDone.responses "A"
          (mkResponse attemptDone qSampleA "A" "4" 0 0 "r1" 0) :=
  ⟨(c4_amended "A" "4" 0 0 "r1" initialState).1 rfl,
   (c4_amended "A" "4" 0 0 "r1" stateDone).2 attemptDone qSampleA rfl
     (by decide)⟩

/-- C5: `submitAnswer` is an overwrite-by-key upsert. For an in-progress
attempt with the question among the loaded questions and a
duplicate-free ledger, submitting two answers for the same `questionId`
leaves exactly one ledger entry for that key, and the stored response is
the one built from the latest answer. -/
theorem c5_overwrite (s : QuizState) (att : QuizAttempt) (q : Question)
    (qid a₁ a₂ : String) (t₁ t₂ : ℚ) (n₁ n₂ : Int) (u₁ u₂ : String)
    (hatt : s.currentAttempt = some att)
    (_hst : att.status = AttemptStatus.in_progress)
    (hq : s.questions.find? (fun qq => qq.id == qid) = some q)
    (hkeys : (s.responses.map Prod.fst).Nodup) :
    ((submitAnswer qid a₂ t₂ n₂ u₂
        (submitAnswer qid a₁ t₁ n₁ u₁ s)).responses.filter
      (fun e => e.1 == qid)).length = 1
    ∧ mapGet (submitAnswer qid a₂ t₂ n₂ u₂
        (submitAnswer qid a₁ t₁ n₁ u₁ s)).responses qid =
      some (mkResponse att q qid a₂ t₂ n₂ u₂ s.currentQuestionIndex)
    ∧ (mkResponse att q qid a₂ t₂ n₂ u₂
        s.currentQuestionIndex).user_answer = a₂ := by
  have h1 := submitAnswer_found qid a₁ t₁ n₁ u₁ s att q hatt hq
  have hatt1 : (submitAnswer qid a₁ t₁ n₁ u₁ s).currentAttempt = some att := by
    rw [h1]; exact hatt
  have hq1 : (submitAnswer qid a₁ t₁ n₁ u₁ s).questions.find?
      (fun qq => qq.id == qid) = some q := by
    rw [h1]; exact hq
  have h2 := submitAnswer_found qid a₂ t₂ n₂ u₂
    (submitAnswer qid a₁ t₁ n₁ u₁ s) att q hatt1 hq1
  have hidx : (submitAnswer qid a₁ t₁ n₁ u₁ s).currentQuestionIndex =
      s.currentQuestionIndex := by
    rw [h1]
  have hresp : (submitAnswer qid a₂ t₂ n₂ u₂
      (submitAnswer qid a₁ t₁ n₁ u₁ s)).responses =
      mapSet (mapSet s.responses qid
          (mkResponse att q qid a₁ t₁ n₁ u₁ s.currentQuestionIndex)) qid
        (mkResponse att q qid a₂ t₂ n₂ u₂ s.currentQuestionIndex) := by
    rw [h2, hidx, h1]
  refine ⟨?_, ?_, rfl⟩
  · rw [hresp, filterKey_mapSet _ _ _ (mapSet_keys_nodup _ _ _ hkeys)]
    rfl
  · rw [hresp, mapGet_mapSet_self]

/-- C5 witness: two submissions for question A on the in-progress store
leave one ledger entry holding the second answer. -/
theorem c5_overwrite_witness :
    ((submitAnswer "A" "3" 0 0 "r2"
        (submitAnswer "A" "4" 0 0 "r1" stateInProg)).responses.filter
      (fun e => e.1 == "A")).length = 1
    ∧ mapGet (submitAnswer "A" "3" 0 0 "r2"
        (submitAnswer "A" "4" 0 0 "r1" stateInProg)).responses "A" =
      some (mkResponse attemptRev qSampleA "A" "3" 0 0 "r2" 0)
    ∧ (mkResponse attemptRev qSampleA "A" "3" 0 0 "r2" 0).user_answer =
      "3" :=
  c5_overwrite stateInProg attemptRev qSampleA "A" "4" "3" 0 0 0 0
    "r1" "r2" rfl rfl (by decide) (by decide)

/-- C6: the response `submitAnswer` records for an in-progress attempt,
when the question is among the loaded questions, carries
`is_correct = (answer == question.correct_answer)`,
`points_awarded = question.points` if correct else `0`, and
`max_points = question.points`. -/
theorem c6_scoring (s : QuizState) (att : QuizAttempt) (q : Question)
    (qid a : String) (t : ℚ) (now : Int) (uuid : String)
    (hatt : s.currentAttempt = some att)
    (_hst : att.status = AttemptStatus.in_progress)
    (hq : s.questions.find? (fun qq => qq.id == qid) = some q) :
    mapGet (submitAnswer qid a t now uuid s).responses qid =
      some (mkResponse att q qid a t now uuid s.currentQuestionIndex)
    ∧ (mkResponse att q qid a t now uuid
        s.currentQuestionIndex).is_correct = (a == q.correct_answer)
    ∧ (mkResponse att q qid a t now uuid
        s.currentQuestionIndex).points_awarded =
      (if a = q.correct_answer then q.points else 0)
    ∧ (mkResponse att q qid a t now uuid
        s.currentQuestionIndex).max_points = q.points := by
  refine ⟨?_, rfl, ?_, rfl⟩
  · rw [submitAnswer_found qid a t now uuid s att q hatt hq,
      mapGet_mapSet_self]
  · simp [mkResponse]

/-- C6 witness: answering "4" to question A (correct answer "4", worth
10 points) records a correct response awarded the full 10 points. -/
theorem c6_scoring_witness :
    mapGet (submitAnswer "A" "4" 0 0 "r1" stateInProg).responses "A" =
      some (mkResponse attemptRev qSampleA "A" "4" 0 0 "r1" 0)
    ∧ (mkResponse attemptRev qSampleA "A" "4" 0 0 "r1" 0).is_correct =
      ("4" == qSampleA.correct_answer)
    ∧ (mkResponse attemptRev qSampleA "A" "4" 0 0 "r1" 0).points_awarded =
      (if "4" = qSampleA.correct_answer then qSampleA.points else 0)
    ∧ (mkResponse attemptRev qSampleA "A" "4" 0 0 "r1" 0).max_points =
      qSampleA.points :=
  c6_scoring stateInProg attemptRev qSampleA "A" "4" 0 0 "r1" rfl rfl
    (by decide)

/-- C7 evidence: the deadline machinery the client actually has is the
`TakeQuiz` interval tick, `setTimeRemaining((t) => Math.max(t - 1, 0))`.
Its next value is a function of the previous stored countdown value
alone — `started_at` and any trusted clock are absent from its type —
and iterating it any number of times (so through any number of
zero-crossings) never touches the current attempt (in particular its
status: nothing ever becomes `expired`) nor the response ledger: no
`finalize`/`expire` call exists to be triggered, let alone exactly
once. -/
theorem c7_evidence (s : QuizState) (k : Nat) :
    tick s = setTimeRemaining (fun t => max (t - 1) 0) s
    ∧ (tick^[k] s).currentAttempt = s.currentAttempt
    ∧ (tick^[k] s).responses = s.responses
    ∧ (tick^[k] s).questions = s.questions := by
  refine ⟨rfl, ?_⟩
  induction k generalizing s with
  | zero => exact ⟨rfl, rfl, rfl⟩
  | succ n ih =>
    rw [Function.iterate_succ_apply]
    rcases ih (tick s) with ⟨h1, h2, h3⟩
    exact ⟨h1, h2, h3⟩

/-- C8 counterexample: attempt `attemptRev` fixes the presentation
order `["B", "A"]` at creation, but resuming it through `startAttempt`
re-fetches the questions with an order-free id-set query and
presents them in the order the fetch returns (table order `A` then
`B`), so the presentation order after loading differs from the
`question_ids` of the attempt. -/
theorem c8_counterexample :
    attemptRev.question_ids = ["B", "A"] ∧
    ((startAttempt [qSampleA, qSampleB] attemptRev initialState).questions.map
      (fun q => q.id)) = ["A", "B"] ∧
    ((startAttempt [qSampleA, qSampleB] attemptRev initialState).questions.map
      (fun q => q.id)) ≠ attemptRev.question_ids := by
  refine ⟨rfl, by decide, by decide⟩

/-- C8 (amended): for attempts created in-session, the presentation
order is fixed at creation — `generateQuiz` records `question_ids` in
exactly the order of the selected questions it hands to `setQuiz`,
`setQuiz` stores that list verbatim, and no in-session operation
(`submitAnswer`, `nextQuestion`, `previousQuestion`, the timer tick, or
`setTimeRemaining`) re-shuffles or otherwise changes the stored
question list. Loading an attempt through `startAttempt`, however,
presents the questions in the order the id-set fetch returns them,
which need not equal the `question_ids` order of the attempt. -/
theorem c8_amended :
    (∀ (cfg : QuizConfig) (pool : List Question) (coins : List Bool)
        (uid aid : String) (now : Int) (r : GenResult),
      generateQuiz cfg pool coins (some uid) aid now = .ok r →
        r.attempt.question_ids = r.questions.map (fun q => q.id))
    ∧ (∀ att qs s, (setQuiz att qs s).questions = qs)
    ∧ (∀ qid a t now uuid s,
        (submitAnswer qid a t now uuid s).questions = s.questions)
    ∧ (∀ s, (nextQuestion s).questions = s.questions)
    ∧ (∀ s, (previousQuestion s).questions = s.questions)
    ∧ (∀ s, (tick s).questions = s.questions)
    ∧ (∀ f s, (setTimeRemaining f s).questions = s.questions) := by
  refine ⟨?_, fun att qs s => rfl, ?_, ?_, ?_, fun s => rfl,
    fun f s => rfl⟩
  · intro cfg pool coins uid aid now r h
    simp only [generateQuiz] at h
    split at h
    · exact absurd h (by simp)
    · split at h
      · exact absurd h (by simp)
      · split at h
        · exact absurd h (by simp)
        · rw [Except.ok.injEq] at h
          rw [← h]
  · intro qid a t now uuid s
    rcases hatt : s.currentAttempt with _ | att
    · simp [submitAnswer, hatt]
    · rcases hq : s.questions.find? (fun qq => qq.id == qid) with _ | q
      · simp [submitAnswer, hatt, hq]
      · rw [submitAnswer_found qid a t now uuid s att q hatt hq]
  · intro s
    rw [nextQuestion]
    split <;> rfl
  · intro s
    rw [previousQuestion]
    split <;> rfl

/-- C8 witness: a concrete successful generation whose attempt ids are
the ids of the selected questions in order, and a `setQuiz` storing the
question list verbatim. -/
theorem c8_amended_witness :
    genSampleResult.attempt.question_ids =
      genSampleResult.questions.map (fun q => q.id)
    ∧ (setQuiz attemptRev [qSampleB, qSampleA] initialState).questions =
      [qSampleB, qSampleA] :=
  ⟨c8_amended.1 cfgSample [qSampleA] [] "u1" "att" 0 genSampleResult rfl,
   c8_amended.2.1 attemptRev [qSampleB, qSampleA] initialState⟩

/-- C9: when no attempt is loaded, or the submitted `questionId` is not
among the loaded questions, `submitAnswer` is a pure no-op: its type
raises no error and the returned store equals the input store in every
field. -/
theorem c9_noop (qid a : String) (t : ℚ) (now : Int) (uuid : String)
    (s : QuizState)
    (h : s.currentAttempt = none ∨
      s.questions.find? (fun q => q.id == qid) = none) :
    submitAnswer qid a t now uuid s = s :=
  submitAnswer_noop qid a t now uuid s h

/-- C9 witness: submitting on the empty store changes nothing. -/
theorem c9_noop_witness :
    submitAnswer "A" "4" 0 0 "r1" initialState = initialState :=
  c9_noop "A" "4" 0 0 "r1" initialState (Or.inl rfl)

/-- C10: every ledger entry present after a `submitAnswer` either was
already present or is the freshly built response, which always has
`skipped = false` and `user_answer` equal to the string the caller
passed; no other store operation adds ledger entries (`submitQuiz`
leaves the ledger as is; navigation and the timer do not touch it;
`resetQuiz`, `setQuiz` and `startAttempt` install an empty ledger), so
no operation ever produces a response marked skipped. -/
theorem c10_no_skipped (qid a : String) (t : ℚ) (now : Int)
    (uuid : String) (s : QuizState) :
    (∀ e ∈ (submitAnswer qid a t now uuid s).responses,
      e ∈ s.responses ∨ (e.2.skipped = false ∧ e.2.user_answer = a))
    ∧ (submitQuiz s).1.responses = s.responses
    ∧ (∀ f, (setTimeRemaining f s).responses = s.responses)
    ∧ (nextQuestion s).responses = s.responses
    ∧ (previousQuestion s).responses = s.responses
    ∧ (resetQuiz s).responses = []
    ∧ (∀ att qs, (setQuiz att qs s).responses = [])
    ∧ (∀ pool att, (startAttempt pool att s).responses = []) := by
  refine ⟨?_, ?_, fun f => rfl, ?_, ?_, rfl, fun att qs => rfl,
    fun pool att => rfl⟩
  · intro e he
    rcases hatt : s.currentAttempt with _ | att
    · rw [submitAnswer_noop qid a t now uuid s (Or.inl hatt)] at he
      exact Or.inl he
    · rcases hq : s.questions.find? (fun qq => qq.id == qid) with _ | q
      · rw [submitAnswer_noop qid a t now uuid s (Or.inr hq)] at he
        exact Or.inl he
      · rw [submitAnswer_found qid a t now uuid s att q hatt hq] at he
        rcases mapSet_mem he with h | h
        · exact Or.inl h
        · exact Or.inr (by rw [h]; exact ⟨rfl, rfl⟩)
  · rcases hatt : s.currentAttempt with _ | att
    · simp [submitQuiz, hatt]
    · simp [submitQuiz, hatt]
  · rw [nextQuestion]; split <;> rfl
  · rw [previousQuestion]; split <;> rfl

/-- C10 witness: the one entry the ledger holds after answering
question A on the completed-attempt store is the freshly built
response, unskipped and carrying the answer string the caller passed. -/
theorem c10_no_skipped_witness :
    ("A", mkResponse attemptDone qSampleA "A" "4" 0 0 "r1" 0) ∈
        stateDone.responses
    ∨ ((mkResponse attemptDone qSampleA "A" "4" 0 0 "r1" 0).skipped = false
        ∧ (mkResponse attemptDone qSampleA "A" "4" 0 0 "r1" 0).user_answer
          = "4") :=
  (c10_no_skipped "A" "4" 0 0 "r1" stateDone).1
    ("A", mkResponse attemptDone qSampleA "A" "4" 0 0 "r1" 0) (by decide)

end PlayQz
